import Mathlib

/-!
Verification of the copy-resolution query engine of
`digitaltwin_dataspace/data/retrieve.py`.

The SQL table is embedded as a list of rows; the SQLAlchemy query built by
`base_query` (self left outer join on `copy_id`, `coalesce` projection,
optional null filter) is embedded as a pure function from the table to the
list of projected rows.  `ORDER BY` is embedded as a stable sort on the date
column (SQL leaves the order of ties unspecified, and none of the theorems
below depend on the tie order).  Datetimes are
embedded as naturals, blob contents as lists of naturals.
-/

namespace Retrieve

/-- A row of the source table, with the columns used by `base_query`:
`id`, `date`, `data` (the payload locator), `type`, `hash`, `copy_id`.
Nullable columns are `Option`s. -/
structure Row where
  id : Nat
  date : Nat
  data : Option String
  type : Option String
  hash : Option String
  copy_id : Option Nat
  deriving Repr, DecidableEq

/-- The projected row produced by `base_query`: its `SELECT` list is
`id, date, coalesce(t2.data, table.data) AS data, type,
coalesce(t2.hash, table.hash) AS hash`. -/
structure ResolvedRow where
  id : Nat
  date : Nat
  data : Option String
  type : Option String
  hash : Option String
  deriving Repr, DecidableEq

/-- SQL `COALESCE(a, b)`: the first non-null argument. -/
def coalesce {α : Type} (a b : Option α) : Option α :=
  match a with
  | some x => some x
  | none => b

/-- The join lookup `t2.id == i`: first row of the table with the given id
(ids are unique, so "first" is immaterial). -/
def lookupById (table : List Row) (i : Nat) : Option Row :=
  table.find? (fun r => r.id == i)

/-- The row `t2` matched by the outer join `table.c.copy_id == t2.c.id`:
no match when `copy_id` is null or dangling. -/
def joinedRow (table : List Row) (r : Row) : Option Row :=
  r.copy_id.bind (lookupById table)

/-- The projection of one row under `base_query`'s `SELECT` list.  When
the outer join found no match, `t2`'s columns are all null, so each
`coalesce` falls back to the row's own column. -/
def resolveRow (table : List Row) (r : Row) : ResolvedRow :=
  let t2 := joinedRow table r
  { id := r.id
    date := r.date
    data := coalesce (t2.bind Row.data) r.data
    type := r.type
    hash := coalesce (t2.bind Row.hash) r.hash }

/-- The `WHERE` clause added when `with_null` is false:
`(table.c.copy_id IS NOT NULL) OR (table.c.hash IS NOT NULL)`.
When `with_null` is true no filter is added. -/
def rowPassesFilter (with_null : Bool) (r : Row) : Bool :=
  with_null || r.copy_id.isSome || r.hash.isSome

/-- `base_query(table, with_null)`: the rows of the table surviving the
null filter, each projected through the coalescing self join. -/
def base_query (table : List Row) (with_null : Bool) : List ResolvedRow :=
  (table.filter (rowPassesFilter with_null)).map (resolveRow table)

/-- `ORDER BY table.c.date.desc()`. -/
def sortByDateDesc (rs : List ResolvedRow) : List ResolvedRow :=
  List.insertionSort (fun a b => b.date ≤ a.date) rs

/-- `ORDER BY table.c.date.asc()`. -/
def sortByDateAsc (rs : List ResolvedRow) : List ResolvedRow :=
  List.insertionSort (fun a b => a.date ≤ b.date) rs

/-- SQL comparison `date < x` against a possibly null bound: comparing
with `NULL` is UNKNOWN, so the row is filtered out. -/
def sqlLtOpt (d : Nat) (x : Option Nat) : Bool :=
  match x with
  | some v => d < v
  | none => false

/-- SQL comparison `date > x` against a possibly null bound. -/
def sqlGtOpt (d : Nat) (x : Option Nat) : Bool :=
  match x with
  | some v => v < d
  | none => false

/-- The blob store: a finite map from locator strings to byte payloads. -/
def Storage : Type := List (String × List Nat)

/-- The hard error raised by the blob store when a locator cannot be
resolved or read. -/
inductive StorageError where
  | storageUnavailable
  deriving Repr, DecidableEq

/-- `storage_manager.read(url)`: look the locator up in the blob store;
fail with `StorageUnavailable` when there is no entry (a null locator has
no entry either). -/
def storageRead (sm : Storage) (url : Option String) :
    Except StorageError (List Nat) :=
  match url with
  | none => .error .storageUnavailable
  | some u =>
    match sm.find? (fun p => p.1 == u) with
    | some p => .ok p.2
    | none => .error .storageUnavailable

/-- The `Data` dataclass: metadata fields plus the stored locator `_url`.
Constructing it performs no blob access — the structure holds only the
locator. -/
structure Data where
  date : Nat
  hash : Option String
  url : Option String
  content_type : Option String
  deriving Repr, DecidableEq

/-- The lazy `Data.data` property: dereferencing the payload calls
`storage_manager.read(self._url)`, propagating its error. -/
def Data.payload (d : Data) (sm : Storage) : Except StorageError (List Nat) :=
  storageRead sm d.url

/-- The projection of one resolved row into a result entity, as built by
the `data_result` decorator: `Data(date=row.date, _url=row.data,
content_type=row.type, hash=row.hash)`.  It reads only the row. -/
def toData (row : ResolvedRow) : Data :=
  { date := row.date, url := row.data, content_type := row.type,
    hash := row.hash }

/-- The single-row half of the `data_result` decorator: `None` maps to
`None`, a row maps through `toData`. -/
def dataResultOne (r : Option ResolvedRow) : Option Data :=
  r.map toData

/-- The list half of the `data_result` decorator. -/
def dataResultList (rs : List ResolvedRow) : List Data :=
  rs.map toData

/-- `retrieve_latest_row(table, with_null)`: base query, `ORDER BY date
DESC`, `LIMIT 1`, `fetchone`, then the decorator. -/
def retrieve_latest_row (table : List Row) (with_null : Bool) : Option Data :=
  dataResultOne (sortByDateDesc (base_query table with_null)).head?

/-- `retrieve_first_row(table)`: base query, `ORDER BY date ASC`,
`LIMIT 1`, `fetchone`, then the decorator. -/
def retrieve_first_row (table : List Row) : Option Data :=
  dataResultOne (sortByDateAsc (base_query table false)).head?

/-- `retrieve_after_datetime(table, date, limit)`: base query,
`WHERE date > date`, `ORDER BY date DESC`, `LIMIT limit`, `fetchall`. -/
def retrieve_after_datetime (table : List Row) (date : Nat) (limit : Nat) :
    List Data :=
  dataResultList
    ((sortByDateDesc ((base_query table false).filter
      (fun r => date < r.date))).take limit)

/-- `retrieve_before_datetime(table, date, limit)`: base query,
`WHERE date < date`, `ORDER BY date DESC`, `LIMIT limit`, `fetchall`. -/
def retrieve_before_datetime (table : List Row) (date : Nat) (limit : Nat) :
    List Data :=
  dataResultList
    ((sortByDateDesc ((base_query table false).filter
      (fun r => r.date < date))).take limit)

/-- The error the spec's taxonomy assigns to `between` with both bounds
absent.  The Python function raises nothing, so the embedding never
produces it; the codomain merely makes the claimed rejection statable. -/
inductive RangeError where
  | invalidRange
  deriving Repr, DecidableEq

/-- `retrieve_between_datetime(table, start_date, end_date, limit)`:
`if start_date is None` filter `date < end_date`; `elif end_date is None`
filter `date > start_date`; else both; always `ORDER BY date ASC`,
`LIMIT limit`.  The function body contains no raise, so every branch
returns `.ok`; with both bounds `None` the first branch compares
`date < NULL`, which matches no row. -/
def retrieve_between_datetime (table : List Row)
    (start_date end_date : Option Nat) (limit : Nat) :
    Except RangeError (List Data) :=
  if start_date = none then
    .ok (dataResultList
      ((sortByDateAsc ((base_query table false).filter
        (fun r => sqlLtOpt r.date end_date))).take limit))
  else if end_date = none then
    .ok (dataResultList
      ((sortByDateAsc ((base_query table false).filter
        (fun r => sqlGtOpt r.date start_date))).take limit))
  else
    .ok (dataResultList
      ((sortByDateAsc ((base_query table false).filter
        (fun r => sqlGtOpt r.date start_date && sqlLtOpt r.date end_date))).take
        limit))

/-- `retrieve_latest_rows_before_datetime(table, date, limit)`: base
query, `WHERE date < date`, `ORDER BY date DESC`, `LIMIT limit`,
`fetchall` — the same query as `retrieve_before_datetime`. -/
def retrieve_latest_rows_before_datetime (table : List Row) (date : Nat)
    (limit : Nat) : List Data :=
  dataResultList
    ((sortByDateDesc ((base_query table false).filter
      (fun r => r.date < date))).take limit)

/-- `retrieve_latest_row_before_datetime(table, date, with_null)`: base
query, `WHERE date < date`, `ORDER BY date DESC`, `LIMIT 1`, `fetchone`. -/
def retrieve_latest_row_before_datetime (table : List Row) (date : Nat)
    (with_null : Bool) : Option Data :=
  dataResultOne
    ((sortByDateDesc ((base_query table with_null).filter
      (fun r => r.date < date)))).head?

/-- The row sequence carried by a successful `between` result (an error
carries none). -/
def okRows : Except RangeError (List Data) → List Data
  | .ok l => l
  | .error _ => []

/-- Completeness contract of one branch of `between` against a match
predicate `p`: the result holds exactly `min n` of the matching rows, all
of them (up to order) when they fit under the limit, nothing but matches,
and on truncation only the oldest matches — every matching row left out is
at least as new as every row returned. -/
def OldestFirstUpTo (rows : List ResolvedRow) (p : ResolvedRow → Bool)
    (n : Nat) (res : List Data) : Prop :=
  res.length = min n (rows.filter p).length ∧
  ((rows.filter p).length ≤ n → res.Perm (dataResultList (rows.filter p))) ∧
  (∀ x ∈ res, ∃ r ∈ rows.filter p, x = toData r) ∧
  (∀ r ∈ rows.filter p, toData r ∉ res → ∀ x ∈ res, x.date ≤ r.date)

/-! ### Helper lemmas -/

/-- Comparing dates downward is a total relation on resolved rows. -/
instance : IsTotal ResolvedRow (fun a b => b.date ≤ a.date) :=
  ⟨fun a b => le_total b.date a.date⟩

/-- Comparing dates downward is a transitive relation on resolved rows. -/
instance : IsTrans ResolvedRow (fun a b => b.date ≤ a.date) :=
  ⟨fun _ _ _ hab hbc => le_trans hbc hab⟩

/-- Comparing dates upward is a total relation on resolved rows. -/
instance : IsTotal ResolvedRow (fun a b => a.date ≤ b.date) :=
  ⟨fun a b => le_total a.date b.date⟩

/-- Comparing dates upward is a transitive relation on resolved rows. -/
instance : IsTrans ResolvedRow (fun a b => a.date ≤ b.date) :=
  ⟨fun _ _ _ hab hbc => le_trans hab hbc⟩

/-- Sorting a two-element list compares the two elements once. -/
theorem insertionSort_pair {α : Type} (r : α → α → Prop) [DecidableRel r]
    (a b : α) :
    List.insertionSort r [a, b] = if r a b then [a, b] else [b, a] := by
  simp [List.insertionSort, List.orderedInsert]

/-- The descending sort is pairwise non-increasing on dates. -/
theorem pairwise_sortByDateDesc (rs : List ResolvedRow) :
    List.Pairwise (fun a b : ResolvedRow => b.date ≤ a.date)
      (sortByDateDesc rs) :=
  List.sorted_insertionSort (fun a b : ResolvedRow => b.date ≤ a.date) rs

/-- The ascending sort is pairwise non-decreasing on dates. -/
theorem pairwise_sortByDateAsc (rs : List ResolvedRow) :
    List.Pairwise (fun a b : ResolvedRow => a.date ≤ b.date)
      (sortByDateAsc rs) :=
  List.sorted_insertionSort (fun a b : ResolvedRow => a.date ≤ b.date) rs

/-- Membership in the descending sort is membership in the input. -/
theorem mem_sortByDateDesc {r : ResolvedRow} {rs : List ResolvedRow} :
    r ∈ sortByDateDesc rs ↔ r ∈ rs :=
  List.mem_insertionSort (fun a b : ResolvedRow => b.date ≤ a.date)

/-- Membership in the ascending sort is membership in the input. -/
theorem mem_sortByDateAsc {r : ResolvedRow} {rs : List ResolvedRow} :
    r ∈ sortByDateAsc rs ↔ r ∈ rs :=
  List.mem_insertionSort (fun a b : ResolvedRow => a.date ≤ b.date)

/-- Shape of a filtered, sorted, truncated, projected result: its length
is bounded by the limit, every element comes from a row of the base query
satisfying the filter, and dates are ordered by the given relation. -/
theorem dataResultList_take_length {rs : List ResolvedRow} {n : Nat} :
    (dataResultList (rs.take n)).length ≤ n := by
  simp [dataResultList, List.length_take]

/-- Shape of an ascending, truncated, projected result: at most the limit. -/
theorem ascResult_length (l : List ResolvedRow) (n : Nat) :
    (dataResultList ((sortByDateAsc l).take n)).length ≤ n := by
  simp only [dataResultList, List.length_map, List.length_take]
  exact min_le_left _ _

/-- Shape of an ascending, truncated, projected result: weakly ascending
dates. -/
theorem ascResult_chain (l : List ResolvedRow) (n : Nat) :
    List.Chain' (fun a b : Data => a.date ≤ b.date)
      (dataResultList ((sortByDateAsc l).take n)) := by
  apply List.Pairwise.chain'
  simp only [dataResultList]
  rw [List.pairwise_map]
  exact List.Pairwise.sublist (List.take_sublist _ _)
    (pairwise_sortByDateAsc _)

/-- Every element of an ascending, truncated, projected result of a
filtered list descends from a row passing the filter with the same date. -/
theorem ascResult_mem {l : List ResolvedRow} {p : ResolvedRow → Bool}
    {n : Nat} {x : Data}
    (hx : x ∈ dataResultList ((sortByDateAsc (l.filter p)).take n)) :
    ∃ r : ResolvedRow, p r = true ∧ x.date = r.date := by
  simp only [dataResultList, List.mem_map] at hx
  obtain ⟨r, hr, rfl⟩ := hx
  have hr2 : r ∈ sortByDateAsc (l.filter p) := List.take_subset _ _ hr
  rw [mem_sortByDateAsc] at hr2
  exact ⟨r, (List.mem_filter.mp hr2).2, rfl⟩

/-- The ascending sort followed by `take n` and projection satisfies the
completeness contract: it keeps `min n` of the filtered rows, all of them
when they fit under the limit, nothing else, and drops only newest-dated
rows. -/
theorem ascTake_oldestFirst (rows : List ResolvedRow)
    (p : ResolvedRow → Bool) (n : Nat) :
    OldestFirstUpTo rows p n
      (dataResultList ((sortByDateAsc (rows.filter p)).take n)) := by
  refine ⟨?_, ?_, ?_, ?_⟩
  · simp only [dataResultList, List.length_map, List.length_take,
      sortByDateAsc, List.length_insertionSort]
  · intro hle
    have hlen : (sortByDateAsc (rows.filter p)).length ≤ n := by
      simpa [sortByDateAsc, List.length_insertionSort] using hle
    rw [List.take_of_length_le hlen]
    exact List.Perm.map toData
      (List.perm_insertionSort (fun a b : ResolvedRow => a.date ≤ b.date) _)
  · intro x hx
    simp only [dataResultList, List.mem_map] at hx
    obtain ⟨r, hr, rfl⟩ := hx
    have hr2 : r ∈ sortByDateAsc (rows.filter p) := List.take_subset _ _ hr
    rw [mem_sortByDateAsc] at hr2
    exact ⟨r, hr2, rfl⟩
  · intro r hr hnot x hx
    have hrs : r ∈ sortByDateAsc (rows.filter p) := mem_sortByDateAsc.mpr hr
    rw [← List.take_append_drop n (sortByDateAsc (rows.filter p)),
      List.mem_append] at hrs
    have hdrop : r ∈ (sortByDateAsc (rows.filter p)).drop n := by
      rcases hrs with htake | hdrop
      · exact absurd (List.mem_map_of_mem toData htake) hnot
      · exact hdrop
    simp only [dataResultList, List.mem_map] at hx
    obtain ⟨t, ht, rfl⟩ := hx
    have hP : List.Pairwise (fun a b : ResolvedRow => a.date ≤ b.date)
        ((sortByDateAsc (rows.filter p)).take n ++
          (sortByDateAsc (rows.filter p)).drop n) := by
      rw [List.take_append_drop]
      exact pairwise_sortByDateAsc _
    exact (List.pairwise_append.mp hP).2.2 t ht r hdrop

/-! ### Claim theorems -/

/-- C10: `retrieve_before_datetime` and `retrieve_latest_rows_before_datetime`
build the same query — the same filter `date < d`, the same descending
order and the same limit — so for every table state, datetime and limit
they return equal result sequences. -/
theorem before_eq_latest_rows_before (table : List Row) (d n : Nat) :
    retrieve_before_datetime table d n =
      retrieve_latest_rows_before_datetime table d n := rfl

/-- C4 (counterexample): on a concrete one-row table, `between` with both
bounds absent returns a normal empty result, not the `InvalidRange`
rejection the claim requires. -/
theorem between_both_none_counterexample :
    retrieve_between_datetime [⟨1, 5, some "a", some "t", some "h1", none⟩]
        none none 10 = Except.ok [] ∧
    retrieve_between_datetime [⟨1, 5, some "a", some "t", some "h1", none⟩]
        none none 10 ≠ Except.error RangeError.invalidRange := by
  have h : retrieve_between_datetime
      [⟨1, 5, some "a", some "t", some "h1", none⟩] none none 10 =
      Except.ok [] := rfl
  rw [h]
  exact ⟨rfl, fun hc => nomatch hc⟩

/-- C4 (amended): `between` with both bounds absent is not rejected: the
`start_date is None` branch is taken, its filter compares `date < NULL`,
which matches no row, and a normal empty sequence is returned for every
table state and limit. -/
theorem between_both_none_returns_empty (table : List Row) (limit : Nat) :
    retrieve_between_datetime table none none limit = Except.ok [] := by
  simp [retrieve_between_datetime, sqlLtOpt, dataResultList, sortByDateAsc,
    List.insertionSort]

/-- C3: with `with_null` false (the default), the base query's filter
rejects exactly the rows whose `copy_id` and `hash` are both null; every
retrieval operation is the filtered table projected row by row; and on a
table holding a single such unresolved row, `latest` returns absent by
default and returns the row only when `with_null` is requested. -/
theorem null_filter_excludes_unresolved :
    (∀ (wn : Bool) (r : Row),
      rowPassesFilter wn r = false ↔
        wn = false ∧ r.copy_id = none ∧ r.hash = none) ∧
    (∀ (table : List Row) (wn : Bool),
      base_query table wn =
        (table.filter (rowPassesFilter wn)).map (resolveRow table)) ∧
    retrieve_latest_row [⟨1, 0, none, none, none, none⟩] false = none ∧
    retrieve_latest_row [⟨1, 0, none, none, none, none⟩] true =
      some ⟨0, none, none, none⟩ := by
  refine ⟨?_, fun _ _ => rfl, rfl, rfl⟩
  intro wn r
  obtain ⟨i, d, da, ty, ha, co⟩ := r
  cases wn <;> cases co <;> cases ha <;> simp [rowPassesFilter]

/-- C2 (counterexample): a row with its own locator `"b"` and hash `"h2"`
whose `copy_id` references a row with locator `"a"` and hash `"h1"`
resolves to the referenced row's locator and hash, not to its own as the
claim states. -/
theorem own_locator_counterexample :
    resolveRow
        [⟨1, 0, some "a", some "ct", some "h1", none⟩,
         ⟨2, 1, some "b", some "ct2", some "h2", some 1⟩]
        ⟨2, 1, some "b", some "ct2", some "h2", some 1⟩ =
      ⟨2, 1, some "a", some "ct2", some "h1"⟩ ∧
    ¬ (resolveRow
        [⟨1, 0, some "a", some "ct", some "h1", none⟩,
         ⟨2, 1, some "b", some "ct2", some "h2", some 1⟩]
        ⟨2, 1, some "b", some "ct2", some "h2", some 1⟩).data = some "b" := by
  exact ⟨rfl, by decide⟩

/-- C2 (amended): resolution projects the row's own `type` unconditionally,
and uses the row's own `locator`/`hash` only when the `copy_id` join
contributes null for that column — `copy_id` null, dangling, or the
referenced row's column null; when the referenced row has a non-null
`locator` or `hash`, the referenced value takes priority over the row's
own. -/
theorem resolution_prefers_referenced (table : List Row) (r t : Row)
    (i : Nat) :
    (resolveRow table r).type = r.type ∧
    (r.copy_id = none →
      resolveRow table r = ⟨r.id, r.date, r.data, r.type, r.hash⟩) ∧
    (r.copy_id = some i → lookupById table i = none →
      resolveRow table r = ⟨r.id, r.date, r.data, r.type, r.hash⟩) ∧
    (r.copy_id = some i → lookupById table i = some t → t.data = none →
      (resolveRow table r).data = r.data) ∧
    (∀ l, r.copy_id = some i → lookupById table i = some t →
      t.data = some l → (resolveRow table r).data = some l) ∧
    (r.copy_id = some i → lookupById table i = some t → t.hash = none →
      (resolveRow table r).hash = r.hash) ∧
    (∀ h, r.copy_id = some i → lookupById table i = some t →
      t.hash = some h → (resolveRow table r).hash = some h) := by
  refine ⟨rfl, ?_, ?_, ?_, ?_, ?_, ?_⟩
  · intro hc
    simp [resolveRow, joinedRow, coalesce, hc]
  · intro hc hl
    simp [resolveRow, joinedRow, coalesce, hc, hl]
  · intro hc hl hd
    simp [resolveRow, joinedRow, coalesce, hc, hl, hd]
  · intro l hc hl hd
    simp [resolveRow, joinedRow, coalesce, hc, hl, hd]
  · intro hc hl hh
    simp [resolveRow, joinedRow, coalesce, hc, hl, hh]
  · intro h hc hl hh
    simp [resolveRow, joinedRow, coalesce, hc, hl, hh]

/-- C2 (amended, witness): the amended theorem applied to the concrete
two-row table where both the row and its referenced row carry a locator and
hash: resolution yields the referenced `"a"`/`"h1"` and keeps the row's
own type. -/
theorem resolution_prefers_referenced_witness :
    (resolveRow
        [⟨1, 0, some "a", some "ct", some "h1", none⟩,
         ⟨2, 1, some "b", some "ct2", some "h2", some 1⟩]
        ⟨2, 1, some "b", some "ct2", some "h2", some 1⟩).data = some "a" ∧
    (resolveRow
        [⟨1, 0, some "a", some "ct", some "h1", none⟩,
         ⟨2, 1, some "b", some "ct2", some "h2", some 1⟩]
        ⟨2, 1, some "b", some "ct2", some "h2", some 1⟩).hash = some "h1" ∧
    (resolveRow
        [⟨1, 0, some "a", some "ct", some "h1", none⟩,
         ⟨2, 1, some "b", some "ct2", some "h2", some 1⟩]
        ⟨2, 1, some "b", some "ct2", some "h2", some 1⟩).type = some "ct2" :=
  ⟨(resolution_prefers_referenced
      [⟨1, 0, some "a", some "ct", some "h1", none⟩,
       ⟨2, 1, some "b", some "ct2", some "h2", some 1⟩]
      ⟨2, 1, some "b", some "ct2", some "h2", some 1⟩
      ⟨1, 0, some "a", some "ct", some "h1", none⟩ 1).2.2.2.2.1 "a"
      rfl rfl rfl,
   (resolution_prefers_referenced
      [⟨1, 0, some "a", some "ct", some "h1", none⟩,
       ⟨2, 1, some "b", some "ct2", some "h2", some 1⟩]
      ⟨2, 1, some "b", some "ct2", some "h2", some 1⟩
      ⟨1, 0, some "a", some "ct", some "h1", none⟩ 1).2.2.2.2.2.2 "h1"
      rfl rfl rfl,
   (resolution_prefers_referenced
      [⟨1, 0, some "a", some "ct", some "h1", none⟩,
       ⟨2, 1, some "b", some "ct2", some "h2", some 1⟩]
      ⟨2, 1, some "b", some "ct2", some "h2", some 1⟩
      ⟨1, 0, some "a", some "ct", some "h1", none⟩ 1).1⟩

/-- C1: a row with null locator and hash whose `copy_id` references a row
with non-null locator and hash resolves to the referenced values; and on
the scenario table `[(id 1, date t1, locator "a", hash "h1"),
(id 2, date t2, null, null, copy_id 1)]` with `t1 < t2`, `latest` returns
date `t2`, hash `"h1"` and locator `"a"`. -/
theorem copy_row_resolution (table : List Row) (r t : Row) (i : Nat)
    (l h : String) (t1 t2 : Nat)
    (hc : r.copy_id = some i) (ht : lookupById table i = some t)
    (htl : t.data = some l) (hth : t.hash = some h) (ht12 : t1 < t2) :
    (resolveRow table r).data = some l ∧
    (resolveRow table r).hash = some h ∧
    retrieve_latest_row
      [⟨1, t1, some "a", some "ct", some "h1", none⟩,
       ⟨2, t2, none, none, none, some 1⟩] false =
      some ⟨t2, some "h1", some "a", none⟩ := by
  refine ⟨?_, ?_, ?_⟩
  · simp [resolveRow, joinedRow, coalesce, hc, ht, htl]
  · simp [resolveRow, joinedRow, coalesce, hc, ht, hth]
  · have hb : base_query
        [⟨1, t1, some "a", some "ct", some "h1", none⟩,
         ⟨2, t2, none, none, none, some 1⟩] false =
        [⟨1, t1, some "a", some "ct", some "h1"⟩,
         ⟨2, t2, some "a", none, some "h1"⟩] := rfl
    simp only [retrieve_latest_row, sortByDateDesc, hb]
    rw [insertionSort_pair]
    rw [if_neg (by simp only [ResolvedRow.date]; omega)]
    rfl

/-- C1 (witness): the resolution and the scenario at `t1 = 0`, `t2 = 1`. -/
theorem copy_row_resolution_witness :
    (resolveRow
        [⟨1, 0, some "a", some "ct", some "h1", none⟩,
         ⟨2, 1, none, none, none, some 1⟩]
        ⟨2, 1, none, none, none, some 1⟩).data = some "a" ∧
    retrieve_latest_row
      [⟨1, 0, some "a", some "ct", some "h1", none⟩,
       ⟨2, 1, none, none, none, some 1⟩] false =
      some ⟨1, some "h1", some "a", none⟩ :=
  ⟨(copy_row_resolution
      [⟨1, 0, some "a", some "ct", some "h1", none⟩,
       ⟨2, 1, none, none, none, some 1⟩]
      ⟨2, 1, none, none, none, some 1⟩
      ⟨1, 0, some "a", some "ct", some "h1", none⟩ 1 "a" "h1" 0 1
      rfl rfl rfl rfl (by decide)).1,
   (copy_row_resolution
      [⟨1, 0, some "a", some "ct", some "h1", none⟩,
       ⟨2, 1, none, none, none, some 1⟩]
      ⟨2, 1, none, none, none, some 1⟩
      ⟨1, 0, some "a", some "ct", some "h1", none⟩ 1 "a" "h1" 0 1
      rfl rfl rfl rfl (by decide)).2.2⟩

/-- C5: the single-row operations (`latest`, `earliest`,
`latestBeforeDate`) return absent rather than an error when no row matches
the filter, and all three return absent on the empty row set. -/
theorem single_row_absent (table : List Row) (d : Nat) (wn : Bool) :
    (base_query table wn = [] → retrieve_latest_row table wn = none) ∧
    (base_query table false = [] → retrieve_first_row table = none) ∧
    ((base_query table wn).filter (fun r => decide (r.date < d)) = [] →
      retrieve_latest_row_before_datetime table d wn = none) ∧
    retrieve_latest_row [] wn = none ∧
    retrieve_first_row [] = none ∧
    retrieve_latest_row_before_datetime [] d wn = none := by
  refine ⟨?_, ?_, ?_, rfl, rfl, rfl⟩
  · intro hb
    simp only [retrieve_latest_row, sortByDateDesc, hb]
    rfl
  · intro hb
    simp only [retrieve_first_row, sortByDateAsc, hb]
    rfl
  · intro hb
    simp only [retrieve_latest_row_before_datetime, sortByDateDesc, hb]
    rfl

/-- C5 (witness): the three implications discharged on the empty table. -/
theorem single_row_absent_witness :
    retrieve_latest_row [] false = none ∧
    retrieve_first_row [] = none ∧
    retrieve_latest_row_before_datetime [] 0 false = none :=
  ⟨(single_row_absent [] 0 false).1 rfl,
   (single_row_absent [] 0 false).2.1 rfl,
   (single_row_absent [] 0 false).2.2.1 rfl⟩

/-- C6 (counterexample): two distinct rows sharing date 5 are both
returned by `afterDate(0, 10)`, and the date sequence `[5, 5]` is not
strictly descending as the claim requires. -/
theorem after_datetime_counterexample :
    retrieve_after_datetime
        [⟨1, 5, some "a", some "t", some "h1", none⟩,
         ⟨2, 5, some "b", some "t", some "h2", none⟩] 0 10 =
      [⟨5, some "h1", some "a", some "t"⟩,
       ⟨5, some "h2", some "b", some "t"⟩] ∧
    ¬ List.Chain' (fun a b : Data => b.date < a.date)
        (retrieve_after_datetime
          [⟨1, 5, some "a", some "t", some "h1", none⟩,
           ⟨2, 5, some "b", some "t", some "h2", none⟩] 0 10) := by
  refine ⟨rfl, fun hch => ?_⟩
  rw [show retrieve_after_datetime
      [⟨1, 5, some "a", some "t", some "h1", none⟩,
       ⟨2, 5, some "b", some "t", some "h2", none⟩] 0 10 =
      [⟨5, some "h1", some "a", some "t"⟩,
       ⟨5, some "h2", some "b", some "t"⟩] from rfl,
    List.chain'_cons] at hch
  simp at hch

/-- C6 (amended): `afterDate(d, n)` returns at most `n` results, every
result has date strictly greater than `d`, and the sequence is weakly
descending by date — strictness can fail only between equal dates, which
the data model permits. -/
theorem after_datetime_bounds (table : List Row) (d n : Nat) :
    (retrieve_after_datetime table d n).length ≤ n ∧
    (retrieve_after_datetime table d n).all
      (fun x => decide (d < x.date)) = true ∧
    List.Chain' (fun a b : Data => b.date ≤ a.date)
      (retrieve_after_datetime table d n) := by
  refine ⟨?_, ?_, ?_⟩
  · simp only [retrieve_after_datetime, dataResultList, List.length_map,
      List.length_take]
    exact min_le_left _ _
  · rw [List.all_eq_true]
    intro x hx
    simp only [retrieve_after_datetime, dataResultList, List.mem_map] at hx
    obtain ⟨r, hr, rfl⟩ := hx
    have hr2 : r ∈ sortByDateDesc ((base_query table false).filter
        (fun r => decide (d < r.date))) := List.take_subset _ _ hr
    rw [mem_sortByDateDesc] at hr2
    exact (List.mem_filter.mp hr2).2
  · apply List.Pairwise.chain'
    simp only [retrieve_after_datetime, dataResultList]
    rw [List.pairwise_map]
    exact List.Pairwise.sublist (List.take_sublist _ _)
      (pairwise_sortByDateDesc _)

/-- C9: resolution follows exactly one level of indirection: when a copy
row references a row that is itself a copy (null locator and hash), the
result carries those null fields rather than chasing the chain; on the
concrete three-row chain, `latest` returns a result with null locator and
hash. -/
theorem single_level_indirection (table : List Row) (r t : Row) (i : Nat)
    (hrd : r.data = none) (hrh : r.hash = none) (hc : r.copy_id = some i)
    (ht : lookupById table i = some t) (htd : t.data = none)
    (hth : t.hash = none) :
    (resolveRow table r).data = none ∧ (resolveRow table r).hash = none ∧
    retrieve_latest_row
      [⟨1, 0, some "a", some "ct", some "h1", none⟩,
       ⟨2, 1, none, none, none, some 1⟩,
       ⟨3, 2, none, none, none, some 2⟩] false =
      some ⟨2, none, none, none⟩ := by
  refine ⟨?_, ?_, rfl⟩
  · simp [resolveRow, joinedRow, coalesce, hc, ht, htd, hrd]
  · simp [resolveRow, joinedRow, coalesce, hc, ht, hth, hrh]

/-- C9 (witness): the chain lemma discharged on the three-row chain at its
last row, whose `copy_id` references the middle copy row. -/
theorem single_level_indirection_witness :
    (resolveRow
        [⟨1, 0, some "a", some "ct", some "h1", none⟩,
         ⟨2, 1, none, none, none, some 1⟩,
         ⟨3, 2, none, none, none, some 2⟩]
        ⟨3, 2, none, none, none, some 2⟩).data = none ∧
    (resolveRow
        [⟨1, 0, some "a", some "ct", some "h1", none⟩,
         ⟨2, 1, none, none, none, some 1⟩,
         ⟨3, 2, none, none, none, some 2⟩]
        ⟨3, 2, none, none, none, some 2⟩).hash = none :=
  ⟨(single_level_indirection
      [⟨1, 0, some "a", some "ct", some "h1", none⟩,
       ⟨2, 1, none, none, none, some 1⟩,
       ⟨3, 2, none, none, none, some 2⟩]
      ⟨3, 2, none, none, none, some 2⟩
      ⟨2, 1, none, none, none, some 1⟩ 2 rfl rfl rfl rfl rfl rfl).1,
   (single_level_indirection
      [⟨1, 0, some "a", some "ct", some "h1", none⟩,
       ⟨2, 1, none, none, none, some 1⟩,
       ⟨3, 2, none, none, none, some 2⟩]
      ⟨3, 2, none, none, none, some 2⟩
      ⟨2, 1, none, none, none, some 1⟩ 2 rfl rfl rfl rfl rfl rfl).2.1⟩

/-- C7: `between(start, end, n)` filters with exactly the claimed
exclusive bounds and returns ascending sequences: each branch's result is
the ascending-ordered, `n`-truncated projection of precisely the
base-query rows meeting the claimed bound (stated as an equality over the
claimed predicate); every returned row satisfies the bound; the result
keeps `min n` of the matching rows — all of them when they fit under the
limit, only the oldest of them otherwise; and every branch succeeds with
at most `n` results in weakly ascending (oldest-first) order. -/
theorem between_bounds (table : List Row) (s e n : Nat) :
    retrieve_between_datetime table none (some e) n =
      Except.ok (dataResultList ((sortByDateAsc
        ((base_query table false).filter
          (fun r => decide (r.date < e)))).take n)) ∧
    retrieve_between_datetime table (some s) none n =
      Except.ok (dataResultList ((sortByDateAsc
        ((base_query table false).filter
          (fun r => decide (s < r.date)))).take n)) ∧
    retrieve_between_datetime table (some s) (some e) n =
      Except.ok (dataResultList ((sortByDateAsc
        ((base_query table false).filter
          (fun r => decide (s < r.date) && decide (r.date < e)))).take n)) ∧
    (okRows (retrieve_between_datetime table none (some e) n)).all
      (fun x => decide (x.date < e)) = true ∧
    (okRows (retrieve_between_datetime table (some s) none n)).all
      (fun x => decide (s < x.date)) = true ∧
    (okRows (retrieve_between_datetime table (some s) (some e) n)).all
      (fun x => decide (s < x.date) && decide (x.date < e)) = true ∧
    OldestFirstUpTo (base_query table false)
      (fun r => decide (r.date < e)) n
      (okRows (retrieve_between_datetime table none (some e) n)) ∧
    OldestFirstUpTo (base_query table false)
      (fun r => decide (s < r.date)) n
      (okRows (retrieve_between_datetime table (some s) none n)) ∧
    OldestFirstUpTo (base_query table false)
      (fun r => decide (s < r.date) && decide (r.date < e)) n
      (okRows (retrieve_between_datetime table (some s) (some e) n)) ∧
    (∀ sd ed : Option Nat,
      (okRows (retrieve_between_datetime table sd ed n)).length ≤ n ∧
      List.Chain' (fun a b : Data => a.date ≤ b.date)
        (okRows (retrieve_between_datetime table sd ed n)) ∧
      ∃ l, retrieve_between_datetime table sd ed n = Except.ok l) := by
  refine ⟨rfl, rfl, rfl, ?_, ?_, ?_, ?_, ?_, ?_, ?_⟩
  · rw [List.all_eq_true]
    intro x hx
    obtain ⟨r, hp, hd⟩ := ascResult_mem hx
    rw [hd]
    simpa [sqlLtOpt] using hp
  · rw [List.all_eq_true]
    intro x hx
    obtain ⟨r, hp, hd⟩ := ascResult_mem hx
    rw [hd]
    simpa [sqlGtOpt] using hp
  · rw [List.all_eq_true]
    intro x hx
    obtain ⟨r, hp, hd⟩ := ascResult_mem hx
    rw [hd]
    simpa [sqlGtOpt, sqlLtOpt] using hp
  · exact ascTake_oldestFirst _ _ _
  · exact ascTake_oldestFirst _ _ _
  · exact ascTake_oldestFirst _ _ _
  · intro sd ed
    cases sd <;> cases ed <;>
      exact ⟨ascResult_length _ _, ascResult_chain _ _, _, rfl⟩

/-- C7 (witness): on a concrete two-row table bounded by `(0, 5)`, the
untruncated call returns a permutation of every matching row, and with
limit 1 the dropped newer row (date 3) bounds the date of the returned
oldest row. -/
theorem between_bounds_witness :
    (okRows (retrieve_between_datetime
        [⟨1, 1, some "a", some "t", some "h1", none⟩,
         ⟨2, 3, some "b", some "t", some "h2", none⟩]
        (some 0) (some 5) 10)).Perm
      (dataResultList ((base_query
        [⟨1, 1, some "a", some "t", some "h1", none⟩,
         ⟨2, 3, some "b", some "t", some "h2", none⟩] false).filter
        (fun r => decide (0 < r.date) && decide (r.date < 5)))) ∧
    (⟨1, some "h1", some "a", some "t"⟩ : Data).date ≤
      (⟨2, 3, some "b", some "t", some "h2"⟩ : ResolvedRow).date :=
  ⟨((between_bounds
      [⟨1, 1, some "a", some "t", some "h1", none⟩,
       ⟨2, 3, some "b", some "t", some "h2", none⟩] 0 5 10).2.2.2.2.2.2.2.2.1).2.1
      (by decide),
   ((between_bounds
      [⟨1, 1, some "a", some "t", some "h1", none⟩,
       ⟨2, 3, some "b", some "t", some "h2", none⟩] 0 5 1).2.2.2.2.2.2.2.2.1).2.2.2
      ⟨2, 3, some "b", some "t", some "h2"⟩ (by decide) (by decide)
      ⟨1, some "h1", some "a", some "t"⟩ (by decide)⟩

/-- C8: constructing a result reads nothing from the blob store — the
projection is a pure function of the resolved row alone — and metadata
access is plain field access; dereferencing the payload calls the blob
store on the result's resolved locator and returns exactly the store's
verdict: `StorageUnavailable` when the locator is null or has no entry,
the stored bytes otherwise, never swallowing the failure. -/
theorem lazy_payload (sm : Storage) (row : ResolvedRow) (d : Data)
    (u : String) :
    (dataResultOne (some row) =
      some { date := row.date, hash := row.hash, url := row.data,
             content_type := row.type }) ∧
    (d.payload sm = storageRead sm d.url) ∧
    (d.url = none →
      d.payload sm = Except.error StorageError.storageUnavailable) ∧
    (d.url = some u → sm.find? (fun p => p.1 == u) = none →
      d.payload sm = Except.error StorageError.storageUnavailable) ∧
    (∀ p : String × List Nat, d.url = some u →
      sm.find? (fun q => q.1 == u) = some p →
      d.payload sm = Except.ok p.2) := by
  refine ⟨rfl, rfl, ?_, ?_, ?_⟩
  · intro h
    simp [Data.payload, storageRead, h]
  · intro h1 h2
    simp [Data.payload, storageRead, h1, h2]
  · intro p h1 h2
    simp [Data.payload, storageRead, h1, h2]

/-- C8 (witness): a result whose locator has no entry in an empty blob
store reads its metadata normally and fails with `StorageUnavailable` only
on payload dereference. -/
theorem lazy_payload_witness :
    dataResultOne (some ⟨1, 1, some "a", some "t", some "h"⟩) =
      some { date := 1, hash := some "h", url := some "a",
             content_type := some "t" } ∧
    Data.payload ⟨1, some "h", some "a", some "t"⟩ [] =
      Except.error StorageError.storageUnavailable :=
  ⟨(lazy_payload [] ⟨1, 1, some "a", some "t", some "h"⟩
      ⟨1, some "h", some "a", some "t"⟩ "a").1,
   (lazy_payload [] ⟨1, 1, some "a", some "t", some "h"⟩
      ⟨1, some "h", some "a", some "t"⟩ "a").2.2.2.1 rfl rfl⟩

end Retrieve
